import Mathlib

/-!
Verification of the Text-to-SQL backend (src/backend/main.py).

The file embeds the pure request-processing pipeline of the backend as Lean
functions on `List Char` / `String`:

* `clean_sql_query` (lines 153-169): strip, remove markdown fences, strip a
  leading label, truncate at the first semicolon, final strip;
* `execute_sql_safely` (lines 171-177): database execution modelled by an
  abstract `run : List Char → Except (List Char) (List Char)`;
* `format_sql_result` (lines 179-189);
* `process_query` (lines 216-251): the POST /query handler's non-exceptional
  path producing a `QueryResponse`.

Python's `re.sub` with the concrete patterns of the source is modelled by
structurally recursive scanners (`removeFenceSql`, `removeFence`,
`stripLabel`) with the same leftmost, non-overlapping semantics.
-/

namespace TextToSql

/-- The backtick character (written escaped). -/
def btick : Char := '\x60'

/-- ASCII whitespace as recognised by Python's `str.strip` and the regex
class `\s` (space, tab, newline, carriage return, vertical tab, form feed). -/
def isPySpace (c : Char) : Bool :=
  c == ' ' || c == '\t' || c == '\n' || c == '\r' || c == '\x0b' || c == '\x0c'

/-- Left strip: drop leading whitespace. -/
def lstripL (l : List Char) : List Char := l.dropWhile isPySpace

/-- Right strip: drop trailing whitespace. -/
def rstripL (l : List Char) : List Char := (l.reverse.dropWhile isPySpace).reverse

/-- Python `str.strip()`. -/
def pyStrip (l : List Char) : List Char := rstripL (lstripL l)

/-- Drop one optional leading newline (the `\n?` part of the fence patterns). -/
def dropNl (l : List Char) : List Char := if l.head? = some '\n' then l.tail else l

/-- `re.sub(r'```sql\n?', '', s)`: remove every occurrence of three
backticks followed by `sql` and an optional newline, scanning left to right,
non-overlapping. -/
def removeFenceSql : List Char → List Char
  | '\x60' :: '\x60' :: '\x60' :: 's' :: 'q' :: 'l' :: '\n' :: rest => removeFenceSql rest
  | '\x60' :: '\x60' :: '\x60' :: 's' :: 'q' :: 'l' :: rest => removeFenceSql rest
  | c :: rest => c :: removeFenceSql rest
  | [] => []

/-- `re.sub(r'```\n?', '', s)`: remove every occurrence of three backticks
followed by an optional newline, scanning left to right, non-overlapping. -/
def removeFence : List Char → List Char
  | '\x60' :: '\x60' :: '\x60' :: '\n' :: rest => removeFence rest
  | '\x60' :: '\x60' :: '\x60' :: rest => removeFence rest
  | c :: rest => c :: removeFence rest
  | [] => []

/-- Case-insensitive test that `p` occurs at the start of `l`
(the `re.IGNORECASE` anchored match of a literal alternative). -/
def ciPrefixOf (p l : List Char) : Bool :=
  decide ((l.take p.length).map Char.toLower = p.map Char.toLower)

/-- Label alternative "SQL Query:". -/
def labelSqlQuery : List Char := "SQL Query:".data

/-- Label alternative "Query:". -/
def labelQuery : List Char := "Query:".data

/-- Label alternative "SQL:". -/
def labelSql : List Char := "SQL:".data

/-- `re.sub(r'^(SQL Query:|Query:|SQL:)\s*', '', s, flags=re.IGNORECASE)`:
an anchored pattern matches at most once, at position 0; the alternatives are
tried in the order written, and `\s*` greedily eats following whitespace. -/
def stripLabel (l : List Char) : List Char :=
  if ciPrefixOf labelSqlQuery l then (l.drop labelSqlQuery.length).dropWhile isPySpace
  else if ciPrefixOf labelQuery l then (l.drop labelQuery.length).dropWhile isPySpace
  else if ciPrefixOf labelSql l then (l.drop labelSql.length).dropWhile isPySpace
  else l

/-- `if ';' in sql: sql = sql.split(';')[0] + ';'`. -/
def semiStep (l : List Char) : List Char :=
  if ';' ∈ l then l.takeWhile (fun c => c != ';') ++ [';'] else l

/-- The fence-removal stage applied to the whitespace-stripped input
(steps 1 and 2 of the cleaning policy). -/
def fencePhase (l : List Char) : List Char := removeFence (removeFenceSql (pyStrip l))

/-- The text after whitespace, fence and label stripping
(steps 1-3 of the cleaning policy). -/
def midClean (l : List Char) : List Char := stripLabel (fencePhase l)

/-- `clean_sql_query` on character lists. -/
def cleanList (l : List Char) : List Char := pyStrip (semiStep (midClean l))

/-- `clean_sql_query` (main.py lines 153-169). -/
def clean_sql_query (s : String) : String := String.mk (cleanList s.data)

/-- Python's substring test `p in l` (naive scan, used for `"COUNT" in query.upper()`
and to express "contains a code-fence marker"). -/
def containsSeq (p : List Char) : List Char → Bool
  | [] => p.isPrefixOf []
  | c :: t => p.isPrefixOf (c :: t) || containsSeq p t

/-- The fixed no-results message. -/
def noResultsMsg : List Char := "No results found for your query.".data

/-- `format_sql_result` (main.py lines 179-189).  The `result` argument is
`Optional` in the source (the handler can pass `None` through); Python's
`if not result or result.strip() == ""` treats `None`, `""` and
whitespace-only strings alike. -/
def format_sql_result (result : Option (List Char)) (question query : List Char) : List Char :=
  match result with
  | none => noResultsMsg
  | some r =>
    if pyStrip r = [] then noResultsMsg
    else if containsSeq "COUNT".data (query.map Char.toUpper) then
      "The result is: ".data ++ r
    else
      "Here are the results:\n\n".data ++ r

/-- The response model of POST /query (main.py lines 28-32). -/
structure QueryResponse where
  success : Bool
  result : Option (List Char)
  sql_query : Option (List Char)
  error : Option (List Char)

/-- `execute_sql_safely` (main.py lines 171-177): `db.run` is modelled by an
abstract `run`; an exception becomes `(None, str(e))`, success `(result, None)`. -/
def execute_sql_safely (run : List Char → Except (List Char) (List Char))
    (query : List Char) : Option (List Char) × Option (List Char) :=
  match run query with
  | Except.ok r => (some r, none)
  | Except.error e => (none, some e)

/-- Python truthiness of the `error` slot: `None` and `""` are falsy. -/
def truthyErr : Option (List Char) → Bool
  | none => false
  | some e => !e.isEmpty

/-- `process_query` (main.py lines 216-251), the non-exceptional path: the
model call is an abstract `model`, execution an abstract `run`. -/
def process_query (model : List Char → List Char)
    (run : List Char → Except (List Char) (List Char))
    (question : List Char) : QueryResponse :=
  let cleaned_sql := cleanList (model question)
  let rp := execute_sql_safely run cleaned_sql
  if truthyErr rp.2 then
    { success := false, result := none, sql_query := some cleaned_sql,
      error := some ("SQL execution error: ".data ++ (rp.2.getD [])) }
  else
    { success := true, result := some (format_sql_result rp.1 question cleaned_sql),
      sql_query := some cleaned_sql, error := none }

/-- Scanner for a run of three backticks anywhere in the list. -/
def hasTriple : List Char → Bool
  | [] => false
  | c :: rest => (c == '\x60' && rest.take 2 == ['\x60', '\x60']) || hasTriple rest

-- sanity checks (concrete evaluations of the embedding)
example : clean_sql_query "SELECT 1; -- note: this does X" = "SELECT 1;" := by decide
example : clean_sql_query "\x60\x60\x60sql\nSELECT 1;\n\x60\x60\x60" = "SELECT 1;" := by decide
example : clean_sql_query "SQL: SELECT 1;" = "SELECT 1;" := by decide
example : clean_sql_query "sql query:  SELECT 2" = "SELECT 2" := by decide
example : clean_sql_query "\x60\x60\x60 SELECT 1;" = "SELECT 1;" := by decide
example : clean_sql_query "Query: Query: SELECT 1;" = "Query: SELECT 1;" := by decide
example : clean_sql_query "\x60\x60\x60 SELECT 1" = "SELECT 1" := by decide
example : clean_sql_query "\x60\x60\x60\x60\x60sql\x60x;" = "x;" := by decide
example : clean_sql_query "\x60\x60\x60\x60\x60\x60" = "" := by decide
example : clean_sql_query "\x60\x60\x60\x60\n" = "\x60" := by decide
example : clean_sql_query "\x60\x60\x60SQL\nSELECT 1;" = "SQL\nSELECT 1;" := by decide
example : clean_sql_query "SQL:\x60\x60\x60sql\nSELECT 3;" = "SELECT 3;" := by decide
example : clean_sql_query "  Query:\t\nSELECT 4 ;x;y" = "SELECT 4 ;" := by decide
example : clean_sql_query ";" = ";" := by decide
example : clean_sql_query "a;b;c" = "a;" := by decide

/-! ### Reduction lemmas for the fence scanners -/

lemma dropNl_nil : dropNl [] = [] := rfl

lemma dropNl_cons_nl (t : List Char) : dropNl ('\n' :: t) = t := rfl

lemma dropNl_cons_ne (c : Char) (t : List Char) (h : c ≠ '\n') : dropNl (c :: t) = c :: t := by
  simp [dropNl, h]

lemma dropNl_length (l : List Char) : (dropNl l).length ≤ l.length := by
  cases l with
  | nil => simp [dropNl]
  | cons c t => by_cases h : c = '\n' <;> simp [dropNl, h]

lemma mem_dropNl_iff (c : Char) (l : List Char) (hc : c ≠ '\n') : c ∈ dropNl l ↔ c ∈ l := by
  unfold dropNl; split
  · rename_i h
    cases l with
    | nil => simp at h
    | cons d t =>
      simp only [List.head?_cons, Option.some.injEq] at h
      subst h
      simp [hc]
  · exact Iff.rfl

lemma removeFence_nil : removeFence [] = [] := rfl

lemma removeFence_tick3_nl (t : List Char) :
    removeFence ('\x60' :: '\x60' :: '\x60' :: '\n' :: t) = removeFence t := rfl

lemma removeFence_tick3 (t : List Char) (h : t.head? ≠ some '\n') :
    removeFence ('\x60' :: '\x60' :: '\x60' :: t) = removeFence t := by
  cases t with
  | nil => rfl
  | cons d t' =>
    have hd : d ≠ '\n' := by simpa using h
    rw [removeFence.eq_def]
    split
    · rename_i heq; injection heq with _ heq; injection heq with _ heq; injection heq with _ heq
      injection heq with h1 _; exact absurd h1 hd
    · rename_i heq; injection heq with _ heq; injection heq with _ heq; injection heq with _ heq
      rw [heq]
    · rename_i x2 heq
      injection heq with h1 h2
      exact (x2 (d :: t') h1.symm h2.symm).elim
    · rename_i heq; exact absurd heq (by simp)

lemma removeFence_dropNl (t : List Char) :
    removeFence ('\x60' :: '\x60' :: '\x60' :: t) = removeFence (dropNl t) := by
  by_cases h : t.head? = some '\n'
  · cases t with
    | nil => simp at h
    | cons d t' =>
      simp only [List.head?_cons, Option.some.injEq] at h
      subst h
      rw [removeFence_tick3_nl, dropNl_cons_nl]
  · rw [removeFence_tick3 t h]
    congr 1
    unfold dropNl
    rw [if_neg h]

lemma removeFence_cons_ne (c : Char) (t : List Char) (h : c ≠ '\x60') :
    removeFence (c :: t) = c :: removeFence t := by
  rw [removeFence.eq_def]
  split
  · rename_i heq; injection heq with h1 _; exact absurd h1 h
  · rename_i heq; injection heq with h1 _; exact absurd h1 h
  · rename_i heq; injection heq with h1 h2; rw [h1, h2]
  · rename_i heq; exact absurd heq (by simp)

lemma removeFence_cons_tick (t : List Char) (h : t.take 2 ≠ ['\x60', '\x60']) :
    removeFence ('\x60' :: t) = '\x60' :: removeFence t := by
  rw [removeFence.eq_def]
  split
  · rename_i heq; injection heq with _ h2; rw [h2] at h; exact absurd rfl h
  · rename_i heq; injection heq with _ h2; rw [h2] at h; exact absurd rfl h
  · rename_i heq; injection heq with h1 h2; rw [h1, h2]
  · rename_i heq; exact absurd heq (by simp)

lemma removeFenceSql_nil : removeFenceSql [] = [] := rfl

lemma removeFenceSql_pat_nl (t : List Char) :
    removeFenceSql ('\x60' :: '\x60' :: '\x60' :: 's' :: 'q' :: 'l' :: '\n' :: t) =
      removeFenceSql t := rfl

lemma removeFenceSql_pat (t : List Char) (h : t.head? ≠ some '\n') :
    removeFenceSql ('\x60' :: '\x60' :: '\x60' :: 's' :: 'q' :: 'l' :: t) = removeFenceSql t := by
  cases t with
  | nil => rfl
  | cons d t' =>
    have hd : d ≠ '\n' := by simpa using h
    rw [removeFenceSql.eq_def]
    split
    · rename_i heq
      injection heq with _ heq; injection heq with _ heq; injection heq with _ heq
      injection heq with _ heq; injection heq with _ heq; injection heq with _ heq
      injection heq with h1 _; exact absurd h1 hd
    · rename_i heq
      injection heq with _ heq; injection heq with _ heq; injection heq with _ heq
      injection heq with _ heq; injection heq with _ heq; injection heq with _ heq
      rw [heq]
    · rename_i x2 heq
      injection heq with h1 h2
      exact (x2 (d :: t') h1.symm h2.symm).elim
    · rename_i heq; exact absurd heq (by simp)

lemma removeFenceSql_dropNl (t : List Char) :
    removeFenceSql ('\x60' :: '\x60' :: '\x60' :: 's' :: 'q' :: 'l' :: t) =
      removeFenceSql (dropNl t) := by
  by_cases h : t.head? = some '\n'
  · cases t with
    | nil => simp at h
    | cons d t' =>
      simp only [List.head?_cons, Option.some.injEq] at h
      subst h
      rw [removeFenceSql_pat_nl, dropNl_cons_nl]
  · rw [removeFenceSql_pat t h]
    congr 1
    unfold dropNl
    rw [if_neg h]

lemma removeFenceSql_cons_ne (c : Char) (t : List Char) (h : c ≠ '\x60') :
    removeFenceSql (c :: t) = c :: removeFenceSql t := by
  rw [removeFenceSql.eq_def]
  split
  · rename_i heq; injection heq with h1 _; exact absurd h1 h
  · rename_i heq; injection heq with h1 _; exact absurd h1 h
  · rename_i heq; injection heq with h1 h2; rw [h1, h2]
  · rename_i heq; exact absurd heq (by simp)

lemma removeFenceSql_cons_tick (t : List Char)
    (h : t.take 5 ≠ ['\x60', '\x60', 's', 'q', 'l']) :
    removeFenceSql ('\x60' :: t) = '\x60' :: removeFenceSql t := by
  rw [removeFenceSql.eq_def]
  split
  · rename_i heq; injection heq with _ h2; rw [h2] at h; exact absurd rfl h
  · rename_i heq; injection heq with _ h2; rw [h2] at h; exact absurd rfl h
  · rename_i heq; injection heq with h1 h2; rw [h1, h2]
  · rename_i heq; exact absurd heq (by simp)

/-! ### No triple backtick survives `removeFence` -/

lemma hasTriple_cons (c : Char) (t : List Char) :
    hasTriple (c :: t) = ((c == '\x60' && t.take 2 == ['\x60', '\x60']) || hasTriple t) := rfl

lemma take_two_shape (t : List Char) (h : t.take 2 = ['\x60', '\x60']) :
    ∃ t₂, t = '\x60' :: '\x60' :: t₂ := by
  cases t with
  | nil => simp at h
  | cons a t' =>
    cases t' with
    | nil => simp at h
    | cons b t'' =>
      simp only [List.take_succ_cons, List.take_zero] at h
      injection h with h1 h
      injection h with h2 _
      exact ⟨t'', by rw [h1, h2]⟩

/-- Joint invariant of the second fence pass: the output contains no triple
backtick, and an output starting with one or two backticks can only come from
an input starting with them. -/
lemma removeFence_good : ∀ n (l : List Char), l.length ≤ n →
    hasTriple (removeFence l) = false ∧
    ((removeFence l).take 2 = ['\x60', '\x60'] → l.take 2 = ['\x60', '\x60']) ∧
    ((removeFence l).take 1 = ['\x60'] → l.take 1 = ['\x60']) := by
  intro n
  induction n with
  | zero =>
    intro l hl
    have hnil : l = [] := List.length_eq_zero.mp (Nat.le_zero.mp hl)
    subst hnil
    exact ⟨rfl, fun h => h, fun h => h⟩
  | succ n ih =>
    intro l hl
    cases l with
    | nil => exact ⟨rfl, fun h => h, fun h => h⟩
    | cons c t =>
      have hlt : t.length ≤ n := by
        simp only [List.length_cons] at hl; omega
      by_cases hc : c = '\x60'
      · subst hc
        by_cases ht : t.take 2 = ['\x60', '\x60']
        · obtain ⟨t₂, rfl⟩ := take_two_shape t ht
          rw [removeFence_dropNl]
          have hlen : (dropNl t₂).length ≤ n := by
            have h1 := dropNl_length t₂
            simp only [List.length_cons] at hlt
            omega
          exact ⟨(ih (dropNl t₂) hlen).1, fun _ => rfl, fun _ => rfl⟩
        · rw [removeFence_cons_tick t ht]
          obtain ⟨ih1, ih2, ih3⟩ := ih t hlt
          refine ⟨?_, ?_, fun _ => rfl⟩
          · have hne : ¬((removeFence t).take 2 == ['\x60', '\x60']) = true := by
              simp only [beq_iff_eq]
              exact fun hcontra => ht (ih2 hcontra)
            simp [hasTriple_cons, ih1, hne]
          · intro h2
            simp only [List.take_succ_cons, List.cons.injEq, true_and] at h2 ⊢
            exact ih3 h2
      · rw [removeFence_cons_ne c t hc]
        obtain ⟨ih1, _, _⟩ := ih t hlt
        refine ⟨?_, ?_, ?_⟩
        · simp [hasTriple_cons, ih1, hc]
        · intro h2
          simp only [List.take_succ_cons, List.cons.injEq] at h2
          exact absurd h2.1 hc
        · intro h1
          simp only [List.take_succ_cons, List.take_zero, List.cons.injEq] at h1
          exact absurd h1.1 hc

lemma hasTriple_removeFence (l : List Char) : hasTriple (removeFence l) = false :=
  (removeFence_good l.length l (Nat.le_refl _)).1

/-! ### `hasTriple = false` is preserved by the later pipeline stages -/

lemma hasTriple_append_left (a b : List Char) (h : hasTriple (a ++ b) = false) :
    hasTriple a = false := by
  induction a with
  | nil => rfl
  | cons c a' ih =>
    rw [List.cons_append, hasTriple_cons, Bool.or_eq_false_iff] at h
    obtain ⟨h1, h2⟩ := h
    rw [hasTriple_cons, Bool.or_eq_false_iff]
    refine ⟨?_, ih h2⟩
    rw [Bool.and_eq_false_iff] at h1 ⊢
    cases h1 with
    | inl hc => exact Or.inl hc
    | inr ht =>
      by_cases hK : a'.take 2 = ['\x60', '\x60']
      · obtain ⟨t₂, rfl⟩ := take_two_shape a' hK
        rw [beq_eq_false_iff_ne] at ht
        exact absurd (by simp) ht
      · exact Or.inr (by rwa [beq_eq_false_iff_ne])

lemma hasTriple_append_right (a b : List Char) (h : hasTriple (a ++ b) = false) :
    hasTriple b = false := by
  induction a with
  | nil => exact h
  | cons c a' ih =>
    rw [List.cons_append, hasTriple_cons, Bool.or_eq_false_iff] at h
    exact ih h.2

lemma hasTriple_concat (a : List Char) (c : Char) (hc : c ≠ '\x60')
    (h : hasTriple a = false) : hasTriple (a ++ [c]) = false := by
  induction a with
  | nil => simp [hasTriple_cons, hasTriple]
  | cons d a' ih =>
    rw [hasTriple_cons, Bool.or_eq_false_iff] at h
    obtain ⟨h1, h2⟩ := h
    rw [List.cons_append, hasTriple_cons, Bool.or_eq_false_iff]
    refine ⟨?_, ih h2⟩
    rw [Bool.and_eq_false_iff] at h1 ⊢
    cases h1 with
    | inl hd => exact Or.inl hd
    | inr ht =>
      refine Or.inr ?_
      rw [beq_eq_false_iff_ne] at ht ⊢
      intro hcontra
      cases a' with
      | nil => simp at hcontra
      | cons e a'' =>
        cases a'' with
        | nil =>
          simp only [List.cons_append, List.nil_append, List.take_succ_cons, List.take_zero,
            List.cons.injEq] at hcontra
          exact hc (by simpa using hcontra.2)
        | cons f a''' =>
          apply ht
          simpa only [List.cons_append, List.take_succ_cons, List.take_zero] using hcontra

lemma hasTriple_dropWhile (p : Char → Bool) (l : List Char) (h : hasTriple l = false) :
    hasTriple (l.dropWhile p) = false :=
  hasTriple_append_right _ _ (by rw [List.takeWhile_append_dropWhile]; exact h)

lemma hasTriple_takeWhile (p : Char → Bool) (l : List Char) (h : hasTriple l = false) :
    hasTriple (l.takeWhile p) = false :=
  hasTriple_append_left _ _ (by rw [List.takeWhile_append_dropWhile]; exact h)

lemma hasTriple_drop (n : Nat) (l : List Char) (h : hasTriple l = false) :
    hasTriple (l.drop n) = false :=
  hasTriple_append_right _ _ (by rw [List.take_append_drop]; exact h)

lemma hasTriple_lstripL (l : List Char) (h : hasTriple l = false) :
    hasTriple (lstripL l) = false := hasTriple_dropWhile _ _ h

lemma rstripL_append_eq (l : List Char) :
    l = rstripL l ++ (l.reverse.takeWhile isPySpace).reverse := by
  unfold rstripL
  conv_lhs => rw [← List.reverse_reverse l, ← List.takeWhile_append_dropWhile isPySpace l.reverse]
  rw [List.reverse_append]

lemma hasTriple_rstripL (l : List Char) (h : hasTriple l = false) :
    hasTriple (rstripL l) = false :=
  hasTriple_append_left _ _ (by rw [← rstripL_append_eq]; exact h)

lemma hasTriple_pyStrip (l : List Char) (h : hasTriple l = false) :
    hasTriple (pyStrip l) = false := hasTriple_rstripL _ (hasTriple_lstripL _ h)

lemma hasTriple_stripLabel (l : List Char) (h : hasTriple l = false) :
    hasTriple (stripLabel l) = false := by
  unfold stripLabel
  split
  · exact hasTriple_dropWhile _ _ (hasTriple_drop _ _ h)
  · split
    · exact hasTriple_dropWhile _ _ (hasTriple_drop _ _ h)
    · split
      · exact hasTriple_dropWhile _ _ (hasTriple_drop _ _ h)
      · exact h

lemma hasTriple_semiStep (l : List Char) (h : hasTriple l = false) :
    hasTriple (semiStep l) = false := by
  unfold semiStep
  split
  · exact hasTriple_concat _ _ (by decide) (hasTriple_takeWhile _ _ h)
  · exact h

/-- The cleaned output never contains three consecutive backticks. -/
lemma hasTriple_cleanList (l : List Char) : hasTriple (cleanList l) = false := by
  unfold cleanList midClean fencePhase
  exact hasTriple_pyStrip _ (hasTriple_semiStep _ (hasTriple_stripLabel _
    (hasTriple_removeFence _)))

/-- `containsSeq` for the triple-backtick pattern coincides with `hasTriple`. -/
lemma triple_isPrefixOf_eq (c : Char) (t : List Char) :
    (['\x60', '\x60', '\x60'].isPrefixOf (c :: t)) =
      (c == '\x60' && t.take 2 == ['\x60', '\x60']) := by
  cases t with
  | nil => simp [List.isPrefixOf]
  | cons d t' =>
    cases t' with
    | nil => simp [List.isPrefixOf, Bool.beq_comm]
    | cons e t'' =>
      simp only [List.isPrefixOf, List.take_succ_cons, List.take_zero,
        List.isPrefixOf_nil_left, Bool.and_true, List.instBEq, List.beq]
      rw [Bool.beq_comm (a := '\x60') (b := c), Bool.beq_comm (a := '\x60') (b := d),
        Bool.beq_comm (a := '\x60') (b := e)]

lemma containsSeq_triple_eq_hasTriple (l : List Char) :
    containsSeq ['\x60', '\x60', '\x60'] l = hasTriple l := by
  induction l with
  | nil => rfl
  | cons c t ih =>
    show (['\x60', '\x60', '\x60'].isPrefixOf (c :: t) || containsSeq ['\x60', '\x60', '\x60'] t)
        = hasTriple (c :: t)
    rw [triple_isPrefixOf_eq, ih, hasTriple_cons]

/-! ### A triple-free list is a fixed point of both fence passes -/

lemma hasTriple_tail (c : Char) (t : List Char) (h : hasTriple (c :: t) = false) :
    hasTriple t = false := by
  rw [hasTriple_cons, Bool.or_eq_false_iff] at h
  exact h.2

lemma hasTriple_head_ne (c : Char) (t : List Char) (h : hasTriple (c :: t) = false)
    (hc : c = '\x60') : t.take 2 ≠ ['\x60', '\x60'] := by
  subst hc
  rw [hasTriple_cons, Bool.or_eq_false_iff, Bool.and_eq_false_iff] at h
  intro hcontra
  rcases h.1 with h1 | h1
  · simp at h1
  · rw [beq_eq_false_iff_ne] at h1; exact h1 hcontra

lemma removeFence_id (l : List Char) (h : hasTriple l = false) : removeFence l = l := by
  induction l with
  | nil => rfl
  | cons c t ih =>
    by_cases hc : c = '\x60'
    · subst hc
      rw [removeFence_cons_tick t (hasTriple_head_ne _ _ h rfl)]
      rw [ih (hasTriple_tail _ _ h)]
    · rw [removeFence_cons_ne c t hc, ih (hasTriple_tail _ _ h)]

lemma removeFenceSql_id (l : List Char) (h : hasTriple l = false) : removeFenceSql l = l := by
  induction l with
  | nil => rfl
  | cons c t ih =>
    by_cases hc : c = '\x60'
    · subst hc
      have h5 : t.take 5 ≠ ['\x60', '\x60', 's', 'q', 'l'] := by
        intro hcontra
        apply hasTriple_head_ne _ _ h rfl
        have h22 : t.take 2 = (t.take 5).take 2 := by simp [List.take_take]
        rw [h22, hcontra]
        rfl
      rw [removeFenceSql_cons_tick t h5, ih (hasTriple_tail _ _ h)]
    · rw [removeFenceSql_cons_ne c t hc, ih (hasTriple_tail _ _ h)]

/-! ### `pyStrip` is idempotent; interaction with appended terminators -/

lemma dropWhile_idem (p : Char → Bool) (l : List Char) :
    List.dropWhile p (List.dropWhile p l) = List.dropWhile p l := by
  induction l with
  | nil => rfl
  | cons c t ih =>
    by_cases h : p c
    · simp [List.dropWhile_cons, h, ih]
    · simp [List.dropWhile_cons, h]

lemma rstripL_idem (l : List Char) : rstripL (rstripL l) = rstripL l := by
  unfold rstripL
  rw [List.reverse_reverse, dropWhile_idem]

lemma dropWhile_fix_head (p : Char → Bool) (c : Char) (t : List Char)
    (h : List.dropWhile p (c :: t) = c :: t) : p c = false := by
  by_cases hp : p c
  · exfalso
    rw [List.dropWhile_cons_of_pos hp] at h
    have hlen := congrArg List.length h
    have hle := (List.dropWhile_sublist (l := t) p).length_le
    simp only [List.length_cons] at hlen
    omega
  · simpa using hp

lemma lstripL_rstripL (l : List Char) (hl : lstripL l = l) :
    lstripL (rstripL l) = rstripL l := by
  rcases hr : rstripL l with _ | ⟨c, t⟩
  · rfl
  · have hdec := rstripL_append_eq l
    rw [hr] at hdec
    obtain ⟨u, hu⟩ : ∃ u, l = c :: u :=
      ⟨t ++ (l.reverse.takeWhile isPySpace).reverse,
        hdec.trans (List.cons_append c t _)⟩
    have hpc : isPySpace c = false := by
      apply dropWhile_fix_head isPySpace c u
      have := hl
      rw [hu] at this
      exact this
    unfold lstripL
    rw [List.dropWhile_cons_of_neg (by simp [hpc])]

lemma pyStrip_idem (l : List Char) : pyStrip (pyStrip l) = pyStrip l := by
  unfold pyStrip
  rw [lstripL_rstripL (lstripL l) (dropWhile_idem isPySpace l), rstripL_idem]

lemma lstripL_append_single (t : List Char) (c : Char) (hc : isPySpace c = false) :
    lstripL (t ++ [c]) = lstripL t ++ [c] := by
  induction t with
  | nil => simp [lstripL, List.dropWhile_cons, hc]
  | cons d t' ih =>
    by_cases h : isPySpace d
    · simp only [lstripL, List.cons_append, List.dropWhile_cons_of_pos h]
      exact ih
    · simp [lstripL, List.cons_append, List.dropWhile_cons_of_neg h]

lemma rstripL_concat (t : List Char) (c : Char) (hc : isPySpace c = false) :
    rstripL (t ++ [c]) = t ++ [c] := by
  unfold rstripL
  rw [List.reverse_append]
  simp only [List.reverse_cons, List.reverse_nil, List.nil_append, List.singleton_append]
  rw [List.dropWhile_cons_of_neg (by simp [hc])]
  simp

lemma pyStrip_concat (t : List Char) (c : Char) (hc : isPySpace c = false) :
    pyStrip (t ++ [c]) = lstripL t ++ [c] := by
  unfold pyStrip
  rw [lstripL_append_single t c hc, rstripL_concat _ c hc]

lemma takeWhile_append_semi (u : List Char) (hu : ';' ∉ u) :
    (u ++ [';']).takeWhile (fun c => c != ';') = u := by
  induction u with
  | nil => simp [List.takeWhile_cons]
  | cons d u' ih =>
    have hd : d ≠ ';' := fun h => hu (h ▸ List.mem_cons_self d u')
    rw [List.cons_append, List.takeWhile_cons]
    simp only [bne_iff_ne, ne_eq, hd, not_false_eq_true, if_true]
    rw [ih (fun h => hu (List.mem_cons_of_mem _ h))]

/-! ### Characters that no stage ever deletes (in particular the semicolon) -/

lemma mem_lstripL_iff (c : Char) (l : List Char) (hc : isPySpace c = false) :
    c ∈ lstripL l ↔ c ∈ l := by
  constructor
  · exact fun h => (List.dropWhile_sublist isPySpace).subset h
  · intro h
    rw [← List.takeWhile_append_dropWhile isPySpace l, List.mem_append] at h
    rcases h with h | h
    · have := List.mem_takeWhile_imp h
      rw [this] at hc
      exact absurd hc (by simp)
    · exact h

lemma mem_rstripL_iff (c : Char) (l : List Char) (hc : isPySpace c = false) :
    c ∈ rstripL l ↔ c ∈ l := by
  constructor
  · intro h
    rw [rstripL_append_eq l, List.mem_append]
    exact Or.inl h
  · intro h
    rw [rstripL_append_eq l, List.mem_append] at h
    rcases h with h | h
    · exact h
    · rw [List.mem_reverse] at h
      have := List.mem_takeWhile_imp h
      rw [this] at hc
      exact absurd hc (by simp)

lemma mem_pyStrip_iff (c : Char) (l : List Char) (hc : isPySpace c = false) :
    c ∈ pyStrip l ↔ c ∈ l := by
  unfold pyStrip
  rw [mem_rstripL_iff c _ hc, mem_lstripL_iff c _ hc]

lemma mem_removeFence_iff (c : Char) (hb : c ≠ '\x60') (hn : c ≠ '\n') :
    ∀ n (l : List Char), l.length ≤ n → (c ∈ removeFence l ↔ c ∈ l) := by
  intro n
  induction n with
  | zero =>
    intro l hl
    have hnil : l = [] := List.length_eq_zero.mp (Nat.le_zero.mp hl)
    subst hnil; exact Iff.rfl
  | succ n ih =>
    intro l hl
    cases l with
    | nil => exact Iff.rfl
    | cons d t =>
      have hlt : t.length ≤ n := by simp only [List.length_cons] at hl; omega
      by_cases hd : d = '\x60'
      · subst hd
        by_cases ht : t.take 2 = ['\x60', '\x60']
        · obtain ⟨t₂, rfl⟩ := take_two_shape t ht
          rw [removeFence_dropNl]
          have hlen : (dropNl t₂).length ≤ n := by
            have := dropNl_length t₂
            simp only [List.length_cons] at hlt
            omega
          rw [ih (dropNl t₂) hlen, mem_dropNl_iff c t₂ hn]
          simp [hb]
        · rw [removeFence_cons_tick t ht]
          simp only [List.mem_cons]
          rw [ih t hlt]
      · rw [removeFence_cons_ne d t hd]
        simp only [List.mem_cons]
        rw [ih t hlt]

lemma take_five_shape (t : List Char) (h : t.take 5 = ['\x60', '\x60', 's', 'q', 'l']) :
    ∃ t₂, t = '\x60' :: '\x60' :: 's' :: 'q' :: 'l' :: t₂ := by
  rcases t with _ | ⟨a, _ | ⟨b, _ | ⟨x, _ | ⟨y, _ | ⟨z, t'⟩⟩⟩⟩⟩
  · simp at h
  · simp at h
  · simp at h
  · simp at h
  · simp at h
  · simp only [List.take_succ_cons, List.take_zero, List.cons.injEq, and_true] at h
    obtain ⟨rfl, rfl, rfl, rfl, rfl⟩ := h
    exact ⟨t', rfl⟩

lemma mem_removeFenceSql_iff (c : Char) (hb : c ≠ '\x60') (hs : c ≠ 's') (hq : c ≠ 'q')
    (hl0 : c ≠ 'l') (hn : c ≠ '\n') :
    ∀ n (l : List Char), l.length ≤ n → (c ∈ removeFenceSql l ↔ c ∈ l) := by
  intro n
  induction n with
  | zero =>
    intro l hl
    have hnil : l = [] := List.length_eq_zero.mp (Nat.le_zero.mp hl)
    subst hnil; exact Iff.rfl
  | succ n ih =>
    intro l hl
    cases l with
    | nil => exact Iff.rfl
    | cons d t =>
      have hlt : t.length ≤ n := by simp only [List.length_cons] at hl; omega
      by_cases hd : d = '\x60'
      · subst hd
        by_cases ht : t.take 5 = ['\x60', '\x60', 's', 'q', 'l']
        · obtain ⟨t₂, rfl⟩ := take_five_shape t ht
          rw [removeFenceSql_dropNl]
          have hlen : (dropNl t₂).length ≤ n := by
            have := dropNl_length t₂
            simp only [List.length_cons] at hlt
            omega
          rw [ih (dropNl t₂) hlen, mem_dropNl_iff c t₂ hn]
          simp [hb, hs, hq, hl0]
        · rw [removeFenceSql_cons_tick t ht]
          simp only [List.mem_cons]
          rw [ih t hlt]
      · rw [removeFenceSql_cons_ne d t hd]
        simp only [List.mem_cons]
        rw [ih t hlt]

lemma mem_fencePhase_semi (l : List Char) : ';' ∈ fencePhase l ↔ ';' ∈ l := by
  unfold fencePhase
  rw [mem_removeFence_iff ';' (by decide) (by decide) _ _ (Nat.le_refl _),
    mem_removeFenceSql_iff ';' (by decide) (by decide) (by decide) (by decide) (by decide)
      _ _ (Nat.le_refl _),
    mem_pyStrip_iff ';' l (by decide)]

lemma mem_ci_take (L l : List Char) (h : ciPrefixOf L l = true) (c : Char)
    (hc : c ∈ l.take L.length) : Char.toLower c ∈ L.map Char.toLower := by
  unfold ciPrefixOf at h
  rw [decide_eq_true_eq] at h
  rw [← h]
  exact List.mem_map_of_mem Char.toLower hc

lemma mem_stripLabel_semi (l : List Char) : ';' ∈ stripLabel l ↔ ';' ∈ l := by
  unfold stripLabel
  have key : ∀ L : List Char, ciPrefixOf L l = true →
      (';' ∉ L.map Char.toLower) →
      ((';' ∈ (l.drop L.length).dropWhile isPySpace) ↔ ';' ∈ l) := by
    intro L hL hmem
    have h1 : (';' ∈ (l.drop L.length).dropWhile isPySpace) ↔ ';' ∈ l.drop L.length := by
      constructor
      · exact fun h => (List.dropWhile_sublist isPySpace).subset h
      · intro h
        rw [← List.takeWhile_append_dropWhile isPySpace (l.drop L.length),
          List.mem_append] at h
        rcases h with h | h
        · exact absurd (List.mem_takeWhile_imp h) (by decide)
        · exact h
    rw [h1]
    constructor
    · intro h
      rw [← List.take_append_drop L.length l, List.mem_append]
      exact Or.inr h
    · intro h
      rw [← List.take_append_drop L.length l, List.mem_append] at h
      rcases h with h | h
      · exact absurd (by simpa using mem_ci_take L l hL ';' h) hmem
      · exact h
  split
  · rename_i hL; exact key labelSqlQuery hL (by decide)
  · split
    · rename_i hL; exact key labelQuery hL (by decide)
    · split
      · rename_i hL; exact key labelSql hL (by decide)
      · exact Iff.rfl

lemma mem_midClean_semi (l : List Char) : ';' ∈ midClean l ↔ ';' ∈ l := by
  unfold midClean
  rw [mem_stripLabel_semi, mem_fencePhase_semi]

/-! ### Transport of a case-insensitive label across the fence passes -/

lemma removeFenceSql_append_clean (p r : List Char) (hp : ∀ c ∈ p, c ≠ '\x60') :
    removeFenceSql (p ++ r) = p ++ removeFenceSql r := by
  induction p with
  | nil => rfl
  | cons c p' ih =>
    rw [List.cons_append, removeFenceSql_cons_ne c _ (hp c (List.mem_cons_self c p')),
      ih (fun d hd => hp d (List.mem_cons_of_mem _ hd)), List.cons_append]

lemma removeFence_append_clean (p r : List Char) (hp : ∀ c ∈ p, c ≠ '\x60') :
    removeFence (p ++ r) = p ++ removeFence r := by
  induction p with
  | nil => rfl
  | cons c p' ih =>
    rw [List.cons_append, removeFence_cons_ne c _ (hp c (List.mem_cons_self c p')),
      ih (fun d hd => hp d (List.mem_cons_of_mem _ hd)), List.cons_append]

lemma ci_no_tick (L l : List Char) (hmem : '\x60' ∉ L.map Char.toLower)
    (h : ciPrefixOf L l = true) : ∀ c ∈ l.take L.length, c ≠ '\x60' := by
  intro c hc hcontra
  subst hcontra
  apply hmem
  have heval : Char.toLower '\x60' = '\x60' := by decide
  have := mem_ci_take L l h '\x60' hc
  rwa [heval] at this

lemma ci_len_le (L l : List Char) (h : ciPrefixOf L l = true) : L.length ≤ l.length := by
  unfold ciPrefixOf at h
  rw [decide_eq_true_eq] at h
  have := congrArg List.length h
  simp only [List.length_map, List.length_take] at this
  omega

lemma fencePhase_label (s : List Char) (L : List Char)
    (hmem : '\x60' ∉ L.map Char.toLower) (h : ciPrefixOf L (pyStrip s) = true) :
    fencePhase s = (pyStrip s).take L.length ++
      removeFence (removeFenceSql ((pyStrip s).drop L.length)) ∧
    ciPrefixOf L (fencePhase s) = true := by
  have hp := ci_no_tick L (pyStrip s) hmem h
  have hsplit : pyStrip s =
      (pyStrip s).take L.length ++ (pyStrip s).drop L.length :=
    (List.take_append_drop _ _).symm
  have hplen : ((pyStrip s).take L.length).length = L.length := by
    rw [List.length_take]
    exact Nat.min_eq_left (ci_len_le L _ h)
  have hfence : fencePhase s = (pyStrip s).take L.length ++
      removeFence (removeFenceSql ((pyStrip s).drop L.length)) := by
    unfold fencePhase
    conv_lhs => rw [hsplit]
    rw [removeFenceSql_append_clean _ _ hp, removeFence_append_clean _ _ hp]
  refine ⟨hfence, ?_⟩
  unfold ciPrefixOf at h ⊢
  rw [decide_eq_true_eq] at h ⊢
  rw [hfence, List.take_left' hplen]
  exact h

lemma ci_take_mono (A B x : List Char) (hA : ciPrefixOf A x = true)
    (hB : ciPrefixOf B x = true) (hab : A.length ≤ B.length) :
    (B.map Char.toLower).take A.length = A.map Char.toLower := by
  unfold ciPrefixOf at hA hB
  rw [decide_eq_true_eq] at hA hB
  rw [← hA, ← hB, ← List.map_take, List.take_take, Nat.min_eq_left hab]

lemma ci_excl_q_sq (x : List Char) (hq : ciPrefixOf labelQuery x = true) :
    ciPrefixOf labelSqlQuery x = false := by
  by_contra hc
  rw [Bool.not_eq_false] at hc
  have := ci_take_mono labelQuery labelSqlQuery x hq hc (by decide)
  exact absurd this (by decide)

lemma ci_excl_s_sq (x : List Char) (hs : ciPrefixOf labelSql x = true) :
    ciPrefixOf labelSqlQuery x = false := by
  by_contra hc
  rw [Bool.not_eq_false] at hc
  have := ci_take_mono labelSql labelSqlQuery x hs hc (by decide)
  exact absurd this (by decide)

lemma ci_excl_s_q (x : List Char) (hs : ciPrefixOf labelSql x = true) :
    ciPrefixOf labelQuery x = false := by
  by_contra hc
  rw [Bool.not_eq_false] at hc
  have := ci_take_mono labelSql labelQuery x hs hc (by decide)
  exact absurd this (by decide)

lemma stripLabel_eq_of_ci (x L : List Char)
    (hL : L = labelSqlQuery ∨ L = labelQuery ∨ L = labelSql)
    (h : ciPrefixOf L x = true) :
    stripLabel x = (x.drop L.length).dropWhile isPySpace := by
  unfold stripLabel
  rcases hL with rfl | rfl | rfl
  · rw [if_pos h]
  · have h1 := ci_excl_q_sq x h
    rw [if_neg (by simp [h1]), if_pos h]
  · have h1 := ci_excl_s_sq x h
    have h2 := ci_excl_s_q x h
    rw [if_neg (by simp [h1]), if_neg (by simp [h2]), if_pos h]

/-! ### Decomposition of the cleaning pipeline around the semicolon step -/

lemma cleanList_semi (l : List Char) (h : ';' ∈ l) :
    cleanList l = pyStrip ((midClean l).takeWhile (fun c => c != ';') ++ [';']) := by
  unfold cleanList semiStep
  rw [if_pos ((mem_midClean_semi l).mpr h)]

lemma cleanList_semi_concat (l : List Char) (h : ';' ∈ l) :
    cleanList l = lstripL ((midClean l).takeWhile (fun c => c != ';')) ++ [';'] := by
  rw [cleanList_semi l h, pyStrip_concat _ _ (by decide)]

lemma semi_not_mem_lead (l : List Char) :
    ';' ∉ lstripL ((midClean l).takeWhile (fun c => c != ';')) := by
  intro h
  have h1 : ';' ∈ (midClean l).takeWhile (fun c => c != ';') :=
    (List.dropWhile_sublist isPySpace).subset h
  have h2 := List.mem_takeWhile_imp h1
  simp at h2

lemma cleanList_nosemi (l : List Char) (h : ';' ∉ l) :
    cleanList l = pyStrip (midClean l) := by
  unfold cleanList semiStep
  rw [if_neg (fun hc => h ((mem_midClean_semi l).mp hc))]

/-! ### Fixed points of the individual stages on an already-clean text -/

lemma stripLabel_id (x : List Char) (h1 : ciPrefixOf labelSqlQuery x = false)
    (h2 : ciPrefixOf labelQuery x = false) (h3 : ciPrefixOf labelSql x = false) :
    stripLabel x = x := by
  unfold stripLabel
  rw [if_neg (by simp [h1]), if_neg (by simp [h2]), if_neg (by simp [h3])]

lemma pyStrip_cleanList (l : List Char) : pyStrip (cleanList l) = cleanList l := by
  unfold cleanList
  exact pyStrip_idem _

lemma semiStep_cleanList (l : List Char) : semiStep (cleanList l) = cleanList l := by
  by_cases h : ';' ∈ l
  · rw [cleanList_semi_concat l h]
    have hu : ';' ∉ lstripL ((midClean l).takeWhile (fun c => c != ';')) :=
      semi_not_mem_lead l
    unfold semiStep
    rw [if_pos (List.mem_append.mpr (Or.inr (List.mem_singleton.mpr rfl)))]
    rw [takeWhile_append_semi _ hu]
  · rw [cleanList_nosemi l h]
    have hnot : ';' ∉ pyStrip (midClean l) := fun hc =>
      h ((mem_midClean_semi l).mp ((mem_pyStrip_iff ';' _ (by decide)).mp hc))
    unfold semiStep
    rw [if_neg hnot]

/-! ## Claim theorems -/

/-- C1: every QueryResponse produced by the POST /query handler has `result`
set iff `success` is true, and `error` set iff `success` is false; in
particular exactly one of the two fields is non-null. -/
theorem C1_response_invariant (model : List Char → List Char)
    (run : List Char → Except (List Char) (List Char)) (question : List Char) :
    ((process_query model run question).result.isSome = true ↔
      (process_query model run question).success = true) ∧
    ((process_query model run question).error.isSome = true ↔
      (process_query model run question).success = false) := by
  unfold process_query execute_sql_safely
  cases hr : run (cleanList (model question)) with
  | ok r => simp [truthyErr, hr]
  | error e =>
    cases e with
    | nil => simp [truthyErr, hr]
    | cons a e' => simp [truthyErr, hr]

/-- Model output used for the C3 counterexample. -/
def c3Model : List Char → List Char := fun _ => "SELECT 1;".data

/-- Database behaviour used for the C3 counterexample: execution raises an
error whose rendered text is the empty string. -/
def c3Run : List Char → Except (List Char) (List Char) := fun _ => Except.error []

/-- C3 counterexample: when execution raises an error whose text is empty,
the handler's truthiness test (`if error:`) misses it and the response has
`success = true` and no error field, contradicting the claim. -/
theorem C3_counterexample :
    c3Run (cleanList (c3Model "how many customers".data)) = Except.error [] ∧
    (process_query c3Model c3Run "how many customers".data).success = true ∧
    (process_query c3Model c3Run "how many customers".data).error = none := by
  refine ⟨rfl, ?_, ?_⟩ <;> decide

/-- C3 (amended): for every query whose execution raises a database error with
a non-empty message, the /query handler returns `success = false`, the cleaned
SQL in `sql_query`, and an error string containing the database's error text. -/
theorem C3_sql_error_reported (model : List Char → List Char)
    (run : List Char → Except (List Char) (List Char)) (question e : List Char)
    (hrun : run (cleanList (model question)) = Except.error e) (hne : e ≠ []) :
    (process_query model run question).success = false ∧
    (process_query model run question).sql_query = some (cleanList (model question)) ∧
    (process_query model run question).error =
      some ("SQL execution error: ".data ++ e) := by
  have htr : truthyErr (some e) = true := by
    cases e with
    | nil => exact absurd rfl hne
    | cons a e' => rfl
  unfold process_query execute_sql_safely
  simp [hrun, htr]

/-- Model output used for the C3 witness. -/
def c3ModelW : List Char → List Char := fun _ => "SELECT x FROM t;".data

/-- Database behaviour used for the C3 witness: execution fails with a
non-empty error message. -/
def c3RunW : List Char → Except (List Char) (List Char) :=
  fun _ => Except.error "no such column: x".data

/-- C3 witness: the amended theorem applied at a concrete model and database. -/
theorem C3_witness :
    c3RunW (cleanList (c3ModelW "q".data)) = Except.error "no such column: x".data ∧
    "no such column: x".data ≠ [] ∧
    ((process_query c3ModelW c3RunW "q".data).success = false ∧
      (process_query c3ModelW c3RunW "q".data).sql_query =
        some (cleanList (c3ModelW "q".data)) ∧
      (process_query c3ModelW c3RunW "q".data).error =
        some ("SQL execution error: ".data ++ "no such column: x".data)) :=
  ⟨rfl, by decide, C3_sql_error_reported c3ModelW c3RunW "q".data _ rfl (by decide)⟩

/-- C5: the output of `clean_sql_query` never contains a code-fence marker
(three consecutive backticks), in particular for raw outputs containing a
fenced code block. -/
theorem C5_no_fence_markers (s : String)
    (h : containsSeq "\x60\x60\x60".data s.data = true) :
    containsSeq "\x60\x60\x60".data (clean_sql_query s).data = false := by
  show containsSeq ['\x60', '\x60', '\x60'] (cleanList s.data) = false
  rw [containsSeq_triple_eq_hasTriple]
  exact hasTriple_cleanList _

/-- C5 witness: the theorem applied to a raw output with a tagged fence. -/
theorem C5_witness :
    containsSeq "\x60\x60\x60".data ("\x60\x60\x60sql\nSELECT 1;\n\x60\x60\x60".data) = true ∧
    containsSeq "\x60\x60\x60".data
      (clean_sql_query "\x60\x60\x60sql\nSELECT 1;\n\x60\x60\x60").data = false :=
  ⟨by decide, C5_no_fence_markers _ (by decide)⟩

/-- C7 counterexample: a whitespace-only result is a non-empty string, yet for
a COUNT query the formatter returns the fixed no-results message rather than
anything prefixed with "The result is:". -/
theorem C7_counterexample :
    " ".data ≠ [] ∧
    containsSeq "COUNT".data (("SELECT COUNT(*) FROM customers;".data).map Char.toUpper)
      = true ∧
    format_sql_result (some " ".data) "q".data "SELECT COUNT(*) FROM customers;".data
      = noResultsMsg ∧
    (("The result is:".data).isPrefixOf
      (format_sql_result (some " ".data) "q".data "SELECT COUNT(*) FROM customers;".data))
      = false := by
  refine ⟨by decide, by decide, ?_, ?_⟩ <;> decide

/-- C7 (amended): for every execution result that is non-empty after stripping
whitespace and every query text containing the case-insensitive substring
"COUNT", the formatter returns the result prefixed with "The result is: ". -/
theorem C7_count_prefixed (result question query : List Char)
    (h1 : pyStrip result ≠ [])
    (h2 : containsSeq "COUNT".data (query.map Char.toUpper) = true) :
    format_sql_result (some result) question query = "The result is: ".data ++ result := by
  simp only [format_sql_result]
  rw [if_neg h1, if_pos h2]

/-- C7 witness: the amended theorem applied at a concrete result and query. -/
theorem C7_witness :
    pyStrip "42".data ≠ [] ∧
    containsSeq "COUNT".data (("select count(*) from customers;".data).map Char.toUpper)
      = true ∧
    format_sql_result (some "42".data) "how many customers are there".data
      "select count(*) from customers;".data = "The result is: ".data ++ "42".data :=
  ⟨by decide, by decide, C7_count_prefixed _ _ _ (by decide) (by decide)⟩

/-- C8: a result that is empty or whitespace-only is formatted as the exact
fixed no-results message, whatever the question and the query text are. -/
theorem C8_empty_result_message (result question query : List Char)
    (h : pyStrip result = []) :
    format_sql_result (some result) question query = noResultsMsg := by
  simp only [format_sql_result]
  rw [if_pos h]

/-- C8 witness: the theorem applied to a whitespace-only result, with a COUNT
query to show the message overrides the other branches. -/
theorem C8_witness :
    pyStrip " \t ".data = [] ∧
    format_sql_result (some " \t ".data) "q".data "SELECT COUNT(*) FROM customers;".data
      = noResultsMsg :=
  ⟨by decide, C8_empty_result_message _ "q".data "SELECT COUNT(*) FROM customers;".data
    (by decide)⟩

/-- C2 counterexample: for the input "``` SELECT 1;" the fence removal
exposes a leading space, so the output is not literally the text up to the
first semicolon of the stripped text followed by ";" — the code applies one
more whitespace strip. -/
theorem C2_counterexample :
    (';' ∈ ("\x60\x60\x60 SELECT 1;".data)) ∧
    cleanList "\x60\x60\x60 SELECT 1;".data ≠
      (midClean "\x60\x60\x60 SELECT 1;".data).takeWhile (fun c => c != ';') ++ [';'] ∧
    clean_sql_query "\x60\x60\x60 SELECT 1;" = "SELECT 1;" := by
  refine ⟨by decide, by decide, by decide⟩

/-- C2 (amended): for every input containing a semicolon, the output is the
text up to the first semicolon (after whitespace, fence and label stripping)
followed by ";", with surrounding whitespace then stripped once more. -/
theorem C2_truncate_at_semicolon (s : String) (h : ';' ∈ s.data) :
    clean_sql_query s =
      String.mk (pyStrip ((midClean s.data).takeWhile (fun c => c != ';') ++ [';'])) :=
  congrArg String.mk (cleanList_semi s.data h)

/-- C2 witness: the amended theorem at the claim's own example input, together
with the concrete output required by the claim. -/
theorem C2_witness :
    (';' ∈ ("SELECT 1; -- note: this does X".data)) ∧
    clean_sql_query "SELECT 1; -- note: this does X" =
      String.mk (pyStrip ((midClean "SELECT 1; -- note: this does X".data).takeWhile
        (fun c => c != ';') ++ [';'])) ∧
    clean_sql_query "SELECT 1; -- note: this does X" = "SELECT 1;" :=
  ⟨by decide, C2_truncate_at_semicolon _ (by decide), by decide⟩

/-- C9 counterexample: for the input "``` SELECT 1" (no semicolon) the
cleaned text after whitespace, fence and label stripping is " SELECT 1", but
the function returns "SELECT 1" — not the cleaned text as-is, because of the
final strip. -/
theorem C9_counterexample :
    (';' ∉ ("\x60\x60\x60 SELECT 1".data)) ∧
    cleanList "\x60\x60\x60 SELECT 1".data ≠ midClean "\x60\x60\x60 SELECT 1".data ∧
    clean_sql_query "\x60\x60\x60 SELECT 1" = "SELECT 1" := by
  refine ⟨by decide, by decide, by decide⟩

/-- C9 (amended): for every input with no semicolon (after whitespace, fence
and label stripping), the cleaned text is returned after one more surrounding
whitespace strip, and no semicolon is appended: the output contains none. -/
theorem C9_no_semicolon_passthrough (s : String) (h : ';' ∉ s.data) :
    clean_sql_query s = String.mk (pyStrip (midClean s.data)) ∧
    ';' ∉ (clean_sql_query s).data := by
  constructor
  · exact congrArg String.mk (cleanList_nosemi s.data h)
  · show ';' ∉ cleanList s.data
    rw [cleanList_nosemi s.data h]
    intro hc
    apply h
    rw [← mem_midClean_semi]
    exact (mem_pyStrip_iff ';' _ (by decide)).mp hc

/-- C9 witness: the amended theorem applied at a concrete unterminated input. -/
theorem C9_witness :
    (';' ∉ ("SELECT 1".data)) ∧
    (clean_sql_query "SELECT 1" = String.mk (pyStrip (midClean "SELECT 1".data)) ∧
      ';' ∉ (clean_sql_query "SELECT 1").data) :=
  ⟨by decide, C9_no_semicolon_passthrough _ (by decide)⟩

/-- C10: whenever the input contains a semicolon, the output contains exactly
one semicolon, and it is the last character of the output. -/
theorem C10_single_terminal_semicolon (s : String) (h : ';' ∈ s.data) :
    (clean_sql_query s).data.count ';' = 1 ∧
    (clean_sql_query s).data.getLast? = some ';' := by
  have hdec : cleanList s.data =
      lstripL ((midClean s.data).takeWhile (fun c => c != ';')) ++ [';'] :=
    cleanList_semi_concat s.data h
  constructor
  · show (cleanList s.data).count ';' = 1
    rw [hdec, List.count_append]
    have h0 : (lstripL ((midClean s.data).takeWhile (fun c => c != ';'))).count ';' = 0 :=
      List.count_eq_zero.mpr (semi_not_mem_lead s.data)
    rw [h0]
    rfl
  · show (cleanList s.data).getLast? = some ';'
    rw [hdec]
    exact List.getLast?_concat _

/-- C10 witness: the theorem applied at a concrete multi-part input. -/
theorem C10_witness :
    (';' ∈ ("SELECT 1; -- x".data)) ∧
    ((clean_sql_query "SELECT 1; -- x").data.count ';' = 1 ∧
      (clean_sql_query "SELECT 1; -- x").data.getLast? = some ';') :=
  ⟨by decide, C10_single_terminal_semicolon _ (by decide)⟩

/-- C4 counterexample: the input "Query: Query: SELECT 1;" begins with the
label "Query:", yet the cleaned output still contains (indeed still begins
with) that label — the anchored substitution strips only the first
occurrence. -/
theorem C4_counterexample :
    ciPrefixOf labelQuery (pyStrip "Query: Query: SELECT 1;".data) = true ∧
    containsSeq "Query:".data (clean_sql_query "Query: Query: SELECT 1;").data = true ∧
    clean_sql_query "Query: Query: SELECT 1;" = "Query: SELECT 1;" := by
  refine ⟨by decide, by decide, by decide⟩

/-- C4 (amended): when the raw output begins (after surrounding whitespace)
with one of the labels "SQL Query:", "Query:", "SQL:" (case-insensitively),
the leading label and the whitespace after it are stripped: the cleaned output
is the rest of the pipeline applied to the text with the label-length prefix
and the following whitespace removed.  The label text may still occur later
in the output. -/
theorem C4_label_stripped (s : String) (L : List Char)
    (hL : L = labelSqlQuery ∨ L = labelQuery ∨ L = labelSql)
    (h : ciPrefixOf L (pyStrip s.data) = true) :
    cleanList s.data =
      pyStrip (semiStep (((fencePhase s.data).drop L.length).dropWhile isPySpace)) := by
  have hmem : '\x60' ∉ L.map Char.toLower := by
    rcases hL with rfl | rfl | rfl <;> decide
  obtain ⟨hfence, hci⟩ := fencePhase_label s.data L hmem h
  have hplen : ((pyStrip s.data).take L.length).length = L.length := by
    rw [List.length_take]
    exact Nat.min_eq_left (ci_len_le L _ h)
  have hdrop : (fencePhase s.data).drop L.length =
      removeFence (removeFenceSql ((pyStrip s.data).drop L.length)) := by
    rw [hfence]
    exact List.drop_left' hplen
  have hstrip : stripLabel (fencePhase s.data) =
      ((fencePhase s.data).drop L.length).dropWhile isPySpace :=
    stripLabel_eq_of_ci _ L hL hci
  unfold cleanList midClean
  rw [hstrip]

/-- C4 witness: the amended theorem applied at a concrete labelled input. -/
theorem C4_witness :
    ciPrefixOf labelSql (pyStrip "SQL: SELECT 1;".data) = true ∧
    cleanList "SQL: SELECT 1;".data =
      pyStrip (semiStep (((fencePhase "SQL: SELECT 1;".data).drop labelSql.length).dropWhile
        isPySpace)) ∧
    clean_sql_query "SQL: SELECT 1;" = "SELECT 1;" :=
  ⟨by decide,
    C4_label_stripped "SQL: SELECT 1;" labelSql (Or.inr (Or.inr rfl)) (by decide),
    by decide⟩

/-- C6 counterexample: "Query: Query: SELECT 1;" cleans to
"Query: SELECT 1;", which is an output of `clean_sql_query`, yet cleaning it
again strips the remaining label and yields "SELECT 1;" — the policy is not
idempotent on every already-clean input. -/
theorem C6_counterexample :
    clean_sql_query (clean_sql_query "Query: Query: SELECT 1;") ≠
      clean_sql_query "Query: Query: SELECT 1;" ∧
    clean_sql_query "Query: Query: SELECT 1;" = "Query: SELECT 1;" ∧
    clean_sql_query (clean_sql_query "Query: Query: SELECT 1;") = "SELECT 1;" := by
  refine ⟨by decide, by decide, by decide⟩

/-- C6 (amended): applying the cleaning policy twice yields the same result as
applying it once, for every input whose once-cleaned output does not itself
begin with one of the labels "SQL Query:", "Query:", "SQL:"
(case-insensitively). -/
theorem C6_idempotent_unlabeled (s : String)
    (h1 : ciPrefixOf labelSqlQuery (clean_sql_query s).data = false)
    (h2 : ciPrefixOf labelQuery (clean_sql_query s).data = false)
    (h3 : ciPrefixOf labelSql (clean_sql_query s).data = false) :
    clean_sql_query (clean_sql_query s) = clean_sql_query s := by
  have key : cleanList (cleanList s.data) = cleanList s.data := by
    have hps : pyStrip (cleanList s.data) = cleanList s.data := pyStrip_cleanList s.data
    have hnt : hasTriple (cleanList s.data) = false := hasTriple_cleanList s.data
    have hsql : removeFenceSql (cleanList s.data) = cleanList s.data :=
      removeFenceSql_id _ hnt
    have hfen : removeFence (cleanList s.data) = cleanList s.data :=
      removeFence_id _ hnt
    have hlab : stripLabel (cleanList s.data) = cleanList s.data :=
      stripLabel_id (cleanList s.data) h1 h2 h3
    have hsemi : semiStep (cleanList s.data) = cleanList s.data := semiStep_cleanList s.data
    calc cleanList (cleanList s.data)
        = pyStrip (semiStep (stripLabel (removeFence (removeFenceSql
            (pyStrip (cleanList s.data)))))) := rfl
      _ = cleanList s.data := by rw [hps, hsql, hfen, hlab, hsemi, hps]
  exact congrArg String.mk key

/-- C6 witness: the amended theorem applied to an already-clean input that
does not begin with a label. -/
theorem C6_witness :
    ciPrefixOf labelSqlQuery (clean_sql_query "SELECT 1;").data = false ∧
    ciPrefixOf labelQuery (clean_sql_query "SELECT 1;").data = false ∧
    ciPrefixOf labelSql (clean_sql_query "SELECT 1;").data = false ∧
    clean_sql_query (clean_sql_query "SELECT 1;") = clean_sql_query "SELECT 1;" :=
  ⟨by decide, by decide, by decide,
    C6_idempotent_unlabeled "SELECT 1;" (by decide) (by decide) (by decide)⟩

end TextToSql
